import Mathlib

/-!
Verification of the code-checkpoints record-management service.

The development shallowly embeds the server's data model and handlers:

* `CodeCheckpoint` mirrors the `code_checkpoints` Postgres table
  (`src/unnamed/part_006`): text columns, a `text[]` tag column, a `real[]`
  embedding column, a serial `id` and a `created_at` timestamp.  Timestamps
  and ids are embedded as integers; the `real` components as rationals.
* The zod input schemas of `src/unnamed/part_001` become validation
  functions (`createCodeCheckpointInputValid`,
  `parseSearchCodeCheckpointsInput`).
* The handlers (`search_code_checkpoints.ts`, and the delete / get-by-id /
  update handlers of `src/unnamed/part_004` and `part_005`) become pure
  functions over an explicit store, a list of rows in insertion order
  (serial ids are assigned in increasing order, so insertion order is
  ascending id order).
* SQL `ILIKE` pattern matching is embedded by an executable matcher
  (`likeMatch`) over case-folded character lists.
-/

namespace CodeCheckpoints

/-- A row of the `code_checkpoints` table (`src/unnamed/part_006`):
serial id, five non-null text columns, `tags text[]`, `embedding real[]`,
and a `created_at` timestamp (embedded as an integer epoch value). -/
structure CodeCheckpoint where
  id : Int
  title : String
  summary : String
  code_snippet : String
  user_feedback : String
  programming_language : String
  tags : List String
  embedding : List ℚ
  created_at : Int
  deriving DecidableEq

/-- Input of `createCodeCheckpointInputSchema` (`src/unnamed/part_001`,
lines 19-27) before validation: five text fields, an optional tags list
(zod `.default([])`), and a required embedding list. -/
structure CreateCodeCheckpointInput where
  title : String
  summary : String
  code_snippet : String
  user_feedback : String
  programming_language : String
  tags : Option (List String)
  embedding : List ℚ
  deriving DecidableEq

/-- The checks of `createCodeCheckpointInputSchema`: each of the five text
fields carries `.min(1)` (length at least one); `tags` and `embedding` are
only checked to be lists, with no length constraint. -/
def createCodeCheckpointInputValid (i : CreateCodeCheckpointInput) : Bool :=
  (1 ≤ i.title.length) && (1 ≤ i.summary.length) && (1 ≤ i.code_snippet.length) &&
    (1 ≤ i.user_feedback.length) && (1 ≤ i.programming_language.length)

/-- Input of `updateCodeCheckpointInputSchema` (`src/unnamed/part_001`,
lines 32-41): the target id plus an optional value for each mutable
column.  `none` means the field was not supplied. -/
structure UpdateCodeCheckpointInput where
  id : Int
  title : Option String
  summary : Option String
  code_snippet : Option String
  user_feedback : Option String
  programming_language : Option String
  tags : Option (List String)
  embedding : Option (List ℚ)
  deriving DecidableEq

/-- Raw (pre-validation) input of `searchCodeCheckpointsInputSchema`
(`src/unnamed/part_001`, lines 46-54): every field optional; `limit` and
`offset` optional numbers subject to `.int().positive()` and
`.int().nonnegative()` with defaults 20 and 0. -/
structure RawSearchInput where
  query : Option String
  keywords : Option (List String)
  programming_language : Option String
  tags : Option (List String)
  embedding : Option (List ℚ)
  limit : Option Int
  offset : Option Int
  deriving DecidableEq

/-- Parsed search input: after validation, `limit` and `offset` are
nonnegative integers (defaults 20 and 0 applied). -/
structure SearchCodeCheckpointsInput where
  query : Option String
  keywords : Option (List String)
  programming_language : Option String
  tags : Option (List String)
  embedding : Option (List ℚ)
  limit : Nat
  offset : Nat
  deriving DecidableEq

/-- `searchCodeCheckpointsInputSchema.parse`: fails (`none`) when a
supplied `limit` is not strictly positive or a supplied `offset` is
negative; otherwise applies the defaults `limit = 20`, `offset = 0`. -/
def parseSearchCodeCheckpointsInput (raw : RawSearchInput) :
    Option SearchCodeCheckpointsInput :=
  let limOk : Bool := match raw.limit with
    | none => true
    | some l => 0 < l
  let offOk : Bool := match raw.offset with
    | none => true
    | some o => 0 ≤ o
  if limOk && offOk then
    some { query := raw.query, keywords := raw.keywords,
           programming_language := raw.programming_language,
           tags := raw.tags, embedding := raw.embedding,
           limit := (raw.limit.getD 20).toNat,
           offset := (raw.offset.getD 0).toNat }
  else
    none

/-!
## SQL `ILIKE` pattern matching

`search_code_checkpoints.ts` builds patterns of the shape
`'%' || keyword || '%'` and compares with `ILIKE`.  Postgres `LIKE`
patterns treat `%` as "any sequence of characters" and `_` as "any single
character"; `ILIKE` additionally case-folds both sides.  The matcher below
implements exactly that over character lists.  (The escape character `\`
is not modelled; all theorems that relate `ILIKE` to plain substring
search restrict keywords to characters other than `%`, `_` and `\`, a
class on which the model and Postgres agree.)

The recursion is driven by a fuel parameter so that the function is
structurally recursive and therefore evaluates inside the kernel; each
step shortens the pattern or the subject, so `pattern length + subject
length + 1` units of fuel always suffice.
-/

/-- Fuel-driven `LIKE` matcher: does pattern `p` match subject `s`? -/
def likeMatchFuel : Nat → List Char → List Char → Bool
  | 0, _, _ => false
  | _ + 1, [], s => s.isEmpty
  | fuel + 1, c :: p, s =>
    if c = '%' then
      likeMatchFuel fuel p s ||
        (match s with
         | [] => false
         | _ :: s2 => likeMatchFuel fuel (c :: p) s2)
    else
      match s with
      | [] => false
      | d :: s2 => (if c = '_' then true else c == d) && likeMatchFuel fuel p s2

/-- `likeMatch p s`: the SQL `LIKE` pattern `p` matches the full subject
`s` (with adequate fuel supplied). -/
def likeMatch (p s : List Char) : Bool :=
  likeMatchFuel (p.length + s.length + 1) p s

/-- The SQL expression `s ILIKE '%' || k || '%'`: both sides are
case-folded and the keyword is wrapped in `%` wildcards
(`search_code_checkpoints.ts`, lines 34-36). -/
def ilikeContains (s k : String) : Bool :=
  likeMatch ('%' :: ((k.toList.map Char.toLower) ++ ['%']))
    (s.toList.map Char.toLower)

/-- `array_to_string(tags, ' ')`: the tag list rendered as a single
space-separated string (`search_code_checkpoints.ts`, line 36). -/
def tagsText (tags : List String) : String :=
  String.intercalate " " tags

/-- `startsWithChars sub big`: `big` begins with `sub` (plain character
comparison; used to state what a substring is). -/
def startsWithChars : List Char → List Char → Bool
  | [], _ => true
  | _ :: _, [] => false
  | c :: cs, d :: ds => (c == d) && startsWithChars cs ds

/-- `hasSubstringChars sub big`: `sub` occurs contiguously inside `big`. -/
def hasSubstringChars (sub : List Char) : List Char → Bool
  | [] => sub.isEmpty
  | d :: bs => startsWithChars sub (d :: bs) || hasSubstringChars sub bs

/-- Case-insensitive substring test, written from the spec's wording
("each keyword must match at least one of ... substring ...
case-insensitively"), for comparison with the `ILIKE`-based code. -/
def specSubstringCI (hay needle : String) : Bool :=
  hasSubstringChars (needle.toList.map Char.toLower)
    (hay.toList.map Char.toLower)

/-!
## The search predicate

`search_code_checkpoints.ts` accumulates one condition per supplied filter
category and combines them with `and(...)`.  TypeScript truthiness guards
each category: an absent (or, for the language, empty-string) value and an
empty list contribute no condition.
-/

/-- Language clause: `eq(programming_language, input.programming_language)`
when `input.programming_language` is truthy (absent and `""` are falsy in
the guarding `if`). -/
def languageCondition (input : SearchCodeCheckpointsInput)
    (r : CodeCheckpoint) : Bool :=
  match input.programming_language with
  | none => true
  | some l => if l = "" then true else r.programming_language == l

/-- Tag clause: `tags @> ARRAY[tag]::text[]`, i.e. the row's tag array
contains the requested tag as an element, with `or(...)` across the
requested tags; skipped when the list is absent or empty. -/
def tagsCondition (input : SearchCodeCheckpointsInput)
    (r : CodeCheckpoint) : Bool :=
  match input.tags with
  | none => true
  | some ts => if ts.isEmpty then true else ts.any (fun t => r.tags.contains t)

/-- One keyword's clause: `title ILIKE '%kw%' OR summary ILIKE '%kw%' OR
array_to_string(tags, ' ') ILIKE '%kw%'`. -/
def keywordCondition (k : String) (r : CodeCheckpoint) : Bool :=
  ilikeContains r.title k || ilikeContains r.summary k ||
    ilikeContains (tagsText r.tags) k

/-- Keyword clause: `and(...)` across the keywords' individual clauses;
skipped when the keyword list is absent or empty. -/
def keywordsCondition (input : SearchCodeCheckpointsInput)
    (r : CodeCheckpoint) : Bool :=
  match input.keywords with
  | none => true
  | some ks => if ks.isEmpty then true else ks.all (fun k => keywordCondition k r)

/-- The combined `WHERE` predicate: AND of the three category clauses. -/
def matchesFilters (input : SearchCodeCheckpointsInput)
    (r : CodeCheckpoint) : Bool :=
  languageCondition input r && tagsCondition input r && keywordsCondition input r

/-!
## Ordering

With a non-empty query embedding, rows are ordered by the SQL expression
`SELECT COALESCE(SUM(e.val * v.val), 0) FROM unnest(embedding) WITH
ORDINALITY e JOIN unnest(query) WITH ORDINALITY v ON e.ord = v.ord`,
descending.  The join on ordinality pairs the two vectors positionally and
drops unmatched positions, so the score is the sum of products over the
common prefix; `COALESCE` turns the empty sum's NULL into 0.  Otherwise
rows are ordered by `created_at DESC` (no further sort key is issued).
-/

/-- The per-row similarity score: positional products over the common
prefix of the two vectors, summed (empty sum is 0). -/
def similarityScore (q e : List ℚ) : ℚ :=
  (List.zipWith (fun a b => a * b) q e).sum

/-- Recency order: `a` may come before `b` under `ORDER BY created_at
DESC` exactly when `b.created_at ≤ a.created_at`. -/
def recencyGe (a b : CodeCheckpoint) : Prop :=
  b.created_at ≤ a.created_at

instance : DecidableRel recencyGe := fun a b =>
  inferInstanceAs (Decidable (b.created_at ≤ a.created_at))

instance : IsTotal CodeCheckpoint recencyGe :=
  ⟨fun a b => le_total b.created_at a.created_at⟩

instance : IsTrans CodeCheckpoint recencyGe :=
  ⟨fun _ _ _ hab hbc => le_trans hbc hab⟩

/-- Similarity order for query vector `q`: `a` may come before `b` under
the descending dot-product `ORDER BY` exactly when `b`'s score does not
exceed `a`'s. -/
def scoreGe (q : List ℚ) (a b : CodeCheckpoint) : Prop :=
  similarityScore q b.embedding ≤ similarityScore q a.embedding

instance (q : List ℚ) : DecidableRel (scoreGe q) := fun _ _ =>
  inferInstanceAs (Decidable (_ ≤ _))

instance (q : List ℚ) : IsTotal CodeCheckpoint (scoreGe q) :=
  ⟨fun _ _ => le_total _ _⟩

instance (q : List ℚ) : IsTrans CodeCheckpoint (scoreGe q) :=
  ⟨fun _ _ _ hab hbc => le_trans hbc hab⟩

/-- The `ORDER BY` step, resolved deterministically by a stable sort: the
dot-product order when `input.embedding` is present and non-empty
(`search_code_checkpoints.ts`, lines 59-67), recency order otherwise. -/
def orderResults (input : SearchCodeCheckpointsInput)
    (rows : List CodeCheckpoint) : List CodeCheckpoint :=
  match input.embedding with
  | some q => if q.isEmpty then List.insertionSort recencyGe rows
              else List.insertionSort (scoreGe q) rows
  | none => List.insertionSort recencyGe rows

/-- The search response envelope (`searchResultsSchema`). -/
structure SearchResults where
  results : List CodeCheckpoint
  total : Nat
  has_more : Bool
  deriving DecidableEq

/-- The `searchCodeCheckpoints` handler
(`src/server/src/handlers/search_code_checkpoints.ts`): filter the store
by the combined predicate, order, slice by offset/limit; `total` comes
from the parallel count query over the same predicate; `has_more` is
`offset + limit < total`. -/
def searchCodeCheckpoints (input : SearchCodeCheckpointsInput)
    (db : List CodeCheckpoint) : SearchResults :=
  let matching := db.filter (matchesFilters input)
  let ordered := orderResults input matching
  { results := (ordered.drop input.offset).take input.limit,
    total := matching.length,
    has_more := decide (input.offset + input.limit < matching.length) }

/-- What the issued SQL actually guarantees about a result page: it is an
offset/limit slice of some arrangement `s` of the matching rows that is
consistent with the `ORDER BY` key.  With a non-unique key (`created_at`,
or a dot-product score), SQL fixes no order among tied rows, so any
key-consistent arrangement is a legal outcome. -/
def validSearchOutput (input : SearchCodeCheckpointsInput)
    (db res : List CodeCheckpoint) : Prop :=
  ∃ s : List CodeCheckpoint,
    s.Perm (db.filter (matchesFilters input)) ∧
    (match input.embedding with
     | some q => if q.isEmpty then s.Pairwise recencyGe else s.Pairwise (scoreGe q)
     | none => s.Pairwise recencyGe) ∧
    res = (s.drop input.offset).take input.limit

/-!
## The id-based handlers

The store is the table's row list in insertion order; serial ids are
assigned in increasing order.
-/

/-- `getCodeCheckpointById` (`src/unnamed/part_004`, lines 23-54):
`SELECT ... WHERE id = $1`, `null` when no row matches. -/
def getCodeCheckpointById (db : List CodeCheckpoint) (id : Int) :
    Option CodeCheckpoint :=
  db.find? (fun r => r.id == id)

/-- `deleteCodeCheckpoint` (`src/unnamed/part_004`, lines 5-18):
`DELETE ... WHERE id = $1`; the returned boolean is `rowCount > 0`.  The
pair is (returned boolean, store after the delete). -/
def deleteCodeCheckpoint (db : List CodeCheckpoint) (id : Int) :
    Bool × List CodeCheckpoint :=
  (db.any (fun r => r.id == id), db.filter (fun r => !(r.id == id)))

/-- Did the update input supply no mutable field at all?
(`Object.keys(updateFields).length === 0` in `src/unnamed/part_005`;
zod drops absent optional keys, so the spread holds exactly the supplied
fields.) -/
def hasNoUpdateFields (input : UpdateCodeCheckpointInput) : Bool :=
  input.title.isNone && input.summary.isNone && input.code_snippet.isNone &&
    input.user_feedback.isNone && input.programming_language.isNone &&
    input.tags.isNone && input.embedding.isNone

/-- `.set(updateFields)`: overwrite exactly the supplied columns; `id` and
`created_at` are not part of the update schema and stay untouched. -/
def applyUpdateFields (input : UpdateCodeCheckpointInput)
    (r : CodeCheckpoint) : CodeCheckpoint :=
  { r with
    title := input.title.getD r.title,
    summary := input.summary.getD r.summary,
    code_snippet := input.code_snippet.getD r.code_snippet,
    user_feedback := input.user_feedback.getD r.user_feedback,
    programming_language := input.programming_language.getD r.programming_language,
    tags := input.tags.getD r.tags,
    embedding := input.embedding.getD r.embedding }

/-- `updateCodeCheckpoint` (`src/unnamed/part_005`): with no supplied
fields, select and return the existing row (store untouched); otherwise
`UPDATE ... WHERE id = $1 RETURNING *`, returning the first updated row or
`null` when the id matches nothing.  The pair is (returned row, store
after the update). -/
def updateCodeCheckpoint (input : UpdateCodeCheckpointInput)
    (db : List CodeCheckpoint) : Option CodeCheckpoint × List CodeCheckpoint :=
  if hasNoUpdateFields input then
    (getCodeCheckpointById db input.id, db)
  else
    ((getCodeCheckpointById db input.id).map (applyUpdateFields input),
     db.map (fun r => if r.id == input.id then applyUpdateFields input r else r))

/-!
## Predicates written from the spec's words

These restate spec sentences that the corresponding code is compared
against; they are deliberately written from the specification text, not
from the source.
-/

/-- Spec wording for one keyword ("each keyword must match at least one of
title substring, summary substring, tag-list substring,
case-insensitively"). -/
def specKeywordMatches (k : String) (r : CodeCheckpoint) : Bool :=
  specSubstringCI r.title k || specSubstringCI r.summary k ||
    specSubstringCI (tagsText r.tags) k

/-- Spec wording for the recency ordering claim: `created_at` descending
with ties in ascending id (insertion) order. -/
def specRecencyIdOrdered (l : List CodeCheckpoint) : Prop :=
  l.Pairwise (fun a b =>
    b.created_at ≤ a.created_at ∧ (a.created_at = b.created_at → a.id ≤ b.id))

/-- No LIKE metacharacter and no escape character occurs among the
keyword's case-folded characters; on this class the embedded matcher and
Postgres `ILIKE` agree and the pattern is a literal. -/
def noLikeMeta (k : String) : Prop :=
  ∀ c ∈ k.toList.map Char.toLower, c ≠ '%' ∧ c ≠ '_' ∧ c ≠ '\\'

/-!
## Concrete stores and inputs used by witnesses and counterexamples
-/

/-- A search input with no filters and the given limit and offset. -/
def plainSearchInput (l o : Nat) : SearchCodeCheckpointsInput :=
  { query := none, keywords := none, programming_language := none,
    tags := none, embedding := none, limit := l, offset := o }

/-- A sample row with fixed filler text fields. -/
def sampleRow (id : Int) (title : String) (tags : List String)
    (lang : String) (emb : List ℚ) (ca : Int) : CodeCheckpoint :=
  { id := id, title := title, summary := "sample summary",
    code_snippet := "sample code", user_feedback := "sample feedback",
    programming_language := lang, tags := tags, embedding := emb,
    created_at := ca }

/-- Two rows sharing one `created_at` value. -/
def tiedRow1 : CodeCheckpoint := sampleRow 1 "first" [] "Python" [] 100

/-- Second row of the tied pair, inserted after `tiedRow1`. -/
def tiedRow2 : CodeCheckpoint := sampleRow 2 "second" [] "Python" [] 100

/-- A store whose two rows have equal timestamps. -/
def tiedStore : List CodeCheckpoint := [tiedRow1, tiedRow2]

/-- Four rows with pairwise distinct timestamps, for the paging example. -/
def pagingStore : List CodeCheckpoint :=
  [sampleRow 1 "p1" [] "Python" [] 400, sampleRow 2 "p2" [] "Python" [] 300,
   sampleRow 3 "p3" [] "Python" [] 200, sampleRow 4 "p4" [] "Python" [] 100]

/-- A raw search request whose only supplied pagination field is
`limit: 0`. -/
def rawLimitZero : RawSearchInput :=
  { query := none, keywords := none, programming_language := none,
    tags := none, embedding := none, limit := some 0, offset := none }

/-- A keyword search for the single keyword `a_c`, which contains the
LIKE wildcard `_`. -/
def underscoreKeywordInput : SearchCodeCheckpointsInput :=
  { query := none, keywords := some ["a_c"], programming_language := none,
    tags := none, embedding := none, limit := 20, offset := 0 }

/-- A row whose title is `abc`: `a_c` is not a substring of any of its
fields, yet `%a_c%` ILIKE-matches the title. -/
def underscoreRow : CodeCheckpoint := sampleRow 7 "abc" [] "Python" [] 100

/-- A keyword search for `REACT` (uppercase, no metacharacters). -/
def reactKeywordInput : SearchCodeCheckpointsInput :=
  { query := none, keywords := some ["REACT"], programming_language := none,
    tags := none, embedding := none, limit := 20, offset := 0 }

/-- A row with `React` in its title. -/
def reactRow : CodeCheckpoint :=
  sampleRow 8 "React Hook" ["react"] "TypeScript" [] 100

/-- A tag filter asking for `python` or `sql`. -/
def tagFilterInput : SearchCodeCheckpointsInput :=
  { query := none, keywords := none, programming_language := none,
    tags := some ["python", "sql"], embedding := none, limit := 20, offset := 0 }

/-- A row tagged `python` and `pandas`. -/
def pandasRow : CodeCheckpoint :=
  sampleRow 9 "Pandas" ["python", "pandas"] "Python" [] 100

/-- A search carrying the one-dimensional query embedding `[1]`. -/
def embSearchInput : SearchCodeCheckpointsInput :=
  { query := none, keywords := none, programming_language := none,
    tags := none, embedding := some [1], limit := 20, offset := 0 }

/-- Two rows with distinct stored embeddings. -/
def embStore : List CodeCheckpoint :=
  [sampleRow 11 "e1" [] "Python" [2] 100, sampleRow 12 "e2" [] "Python" [3] 200]

/-- The row being updated in the update examples. -/
def updStoreRow : CodeCheckpoint :=
  sampleRow 5 "Original Title" ["original"] "javascript" [1, 2] 100

/-- A one-row store for the update examples. -/
def updStore : List CodeCheckpoint := [updStoreRow]

/-- An update supplying only a new title. -/
def updTitleOnly : UpdateCodeCheckpointInput :=
  { id := 5, title := some "Updated Title", summary := none,
    code_snippet := none, user_feedback := none, programming_language := none,
    tags := none, embedding := none }

/-- An update supplying no mutable field at all. -/
def updNothing : UpdateCodeCheckpointInput :=
  { id := 5, title := none, summary := none, code_snippet := none,
    user_feedback := none, programming_language := none, tags := none,
    embedding := none }

/-- A create input whose embedding list is empty but whose text fields are
all non-empty. -/
def emptyEmbeddingCreate : CreateCodeCheckpointInput :=
  { title := "t", summary := "s", code_snippet := "c", user_feedback := "f",
    programming_language := "ts", tags := none, embedding := [] }

/-!
## Theory of the `LIKE` matcher
-/

theorem likeMatchFuel_succ_nil (n : ℕ) (s : List Char) :
    likeMatchFuel (n + 1) [] s = s.isEmpty := by
  simp [likeMatchFuel]

theorem likeMatchFuel_succ_cons_nil (n : ℕ) (c : Char) (p : List Char) :
    likeMatchFuel (n + 1) (c :: p) [] =
      if c = '%' then likeMatchFuel n p [] else false := by
  by_cases hc : c = '%' <;> simp [likeMatchFuel, hc]

theorem likeMatchFuel_succ_cons_cons (n : ℕ) (c : Char) (p : List Char)
    (d : Char) (s : List Char) :
    likeMatchFuel (n + 1) (c :: p) (d :: s) =
      if c = '%' then
        (likeMatchFuel n p (d :: s) || likeMatchFuel n (c :: p) s)
      else
        ((if c = '_' then true else c == d) && likeMatchFuel n p s) := by
  by_cases hc : c = '%' <;> simp [likeMatchFuel, hc]

theorem likeMatchFuel_mono : ∀ (n m : ℕ) (p s : List Char),
    p.length + s.length < n → n ≤ m →
    likeMatchFuel n p s = likeMatchFuel m p s := by
  intro n
  induction n with
  | zero => intro m p s h _; omega
  | succ n ih =>
    intro m p s h hm
    obtain ⟨m, rfl⟩ : ∃ m', m = m' + 1 := ⟨m - 1, by omega⟩
    cases p with
    | nil => rw [likeMatchFuel_succ_nil, likeMatchFuel_succ_nil]
    | cons c p =>
      simp only [List.length_cons] at h
      cases s with
      | nil =>
        rw [likeMatchFuel_succ_cons_nil, likeMatchFuel_succ_cons_nil,
          ih m p [] (by simp; omega) (by omega)]
      | cons d s2 =>
        rw [likeMatchFuel_succ_cons_cons, likeMatchFuel_succ_cons_cons]
        simp only [List.length_cons] at h
        rw [ih m p (d :: s2) (by simp only [List.length_cons]; omega) (by omega),
          ih m (c :: p) s2 (by simp only [List.length_cons]; omega) (by omega),
          ih m p s2 (by omega) (by omega)]

theorem likeMatchFuel_eq_likeMatch (n : ℕ) (p s : List Char)
    (h : p.length + s.length < n) : likeMatchFuel n p s = likeMatch p s := by
  unfold likeMatch
  rcases le_total n (p.length + s.length + 1) with hle | hle
  · exact likeMatchFuel_mono n (p.length + s.length + 1) p s h hle
  · exact (likeMatchFuel_mono (p.length + s.length + 1) n p s (by omega) hle).symm

theorem likeMatch_nil_pattern (s : List Char) : likeMatch [] s = s.isEmpty :=
  likeMatchFuel_succ_nil _ s

theorem likeMatch_pct_nil (p : List Char) :
    likeMatch ('%' :: p) [] = likeMatch p [] := by
  show likeMatchFuel (('%' :: p).length + [].length + 1) ('%' :: p) [] = _
  rw [likeMatchFuel_succ_cons_nil, if_pos rfl,
    likeMatchFuel_eq_likeMatch _ _ _ (by simp)]

theorem likeMatch_pct_cons (p : List Char) (d : Char) (s : List Char) :
    likeMatch ('%' :: p) (d :: s) =
      (likeMatch p (d :: s) || likeMatch ('%' :: p) s) := by
  show likeMatchFuel (('%' :: p).length + (d :: s).length + 1) ('%' :: p) (d :: s) = _
  rw [likeMatchFuel_succ_cons_cons, if_pos rfl,
    likeMatchFuel_eq_likeMatch _ _ _ (by simp only [List.length_cons]; omega),
    likeMatchFuel_eq_likeMatch _ _ _ (by simp only [List.length_cons]; omega)]

theorem likeMatch_lit_nil (c : Char) (p : List Char) (hc : c ≠ '%') :
    likeMatch (c :: p) [] = false := by
  show likeMatchFuel ((c :: p).length + [].length + 1) (c :: p) [] = false
  rw [likeMatchFuel_succ_cons_nil, if_neg hc]

theorem likeMatch_lit (c : Char) (p : List Char) (d : Char) (s : List Char)
    (hc : c ≠ '%') :
    likeMatch (c :: p) (d :: s) =
      ((if c = '_' then true else c == d) && likeMatch p s) := by
  show likeMatchFuel ((c :: p).length + (d :: s).length + 1) (c :: p) (d :: s) = _
  rw [likeMatchFuel_succ_cons_cons, if_neg hc,
    likeMatchFuel_eq_likeMatch _ _ _ (by simp; omega)]

theorem likeMatch_pct_singleton (s : List Char) : likeMatch ['%'] s = true := by
  induction s with
  | nil => rw [likeMatch_pct_nil]; simp [likeMatch_nil_pattern]
  | cons d s ih => rw [likeMatch_pct_cons]; simp [ih]

theorem likeMatch_literal_append_pct (kl : List Char)
    (h : ∀ c ∈ kl, c ≠ '%' ∧ c ≠ '_') :
    ∀ t, likeMatch (kl ++ ['%']) t = startsWithChars kl t := by
  induction kl with
  | nil =>
    intro t
    simpa [startsWithChars] using likeMatch_pct_singleton t
  | cons c kl ih =>
    intro t
    have hc := h c (by simp)
    cases t with
    | nil =>
      rw [List.cons_append, likeMatch_lit_nil c _ hc.1]
      simp [startsWithChars]
    | cons d t =>
      rw [List.cons_append, likeMatch_lit c _ d t hc.1]
      rw [if_neg hc.2, ih (fun x hx => h x (by simp [hx])) t]
      simp [startsWithChars]

theorem likeMatch_pct_iff (q : List Char) :
    ∀ s, likeMatch ('%' :: q) s = true ↔
      ∃ l t, s = l ++ t ∧ likeMatch q t = true := by
  intro s
  induction s with
  | nil =>
    rw [likeMatch_pct_nil]
    constructor
    · intro h
      exact ⟨[], [], rfl, h⟩
    · rintro ⟨l, t, hlt, hq⟩
      obtain ⟨rfl, rfl⟩ : l = [] ∧ t = [] := List.append_eq_nil.mp hlt.symm
      exact hq
  | cons d s ih =>
    rw [likeMatch_pct_cons]
    simp only [Bool.or_eq_true, ih]
    constructor
    · rintro (h | ⟨l, t, rfl, hq⟩)
      · exact ⟨[], d :: s, rfl, h⟩
      · exact ⟨d :: l, t, rfl, hq⟩
    · rintro ⟨l, t, hlt, hq⟩
      cases l with
      | nil =>
        left
        simp only [List.nil_append] at hlt
        rw [← hlt] at hq
        exact hq
      | cons x l =>
        right
        rw [List.cons_append] at hlt
        injection hlt with h1 h2
        exact ⟨l, t, h2, hq⟩

theorem startsWithChars_iff (kl : List Char) :
    ∀ t, startsWithChars kl t = true ↔ ∃ rst, t = kl ++ rst := by
  induction kl with
  | nil => intro t; simp [startsWithChars]
  | cons c kl ih =>
    intro t
    cases t with
    | nil => simp [startsWithChars]
    | cons d t =>
      simp only [startsWithChars, Bool.and_eq_true, beq_iff_eq, ih,
        List.cons_append, List.cons.injEq]
      constructor
      · rintro ⟨rfl, rst, rfl⟩; exact ⟨rst, rfl, rfl⟩
      · rintro ⟨rst, rfl, rfl⟩; exact ⟨rfl, rst, rfl⟩

theorem hasSubstringChars_iff (kl : List Char) :
    ∀ sl, hasSubstringChars kl sl = true ↔ ∃ l r, sl = l ++ kl ++ r := by
  intro sl
  induction sl with
  | nil =>
    cases kl <;> simp [hasSubstringChars]
  | cons d bs ih =>
    simp only [hasSubstringChars, Bool.or_eq_true, ih, startsWithChars_iff]
    constructor
    · rintro (⟨rst, h⟩ | ⟨l, r, rfl⟩)
      · exact ⟨[], rst, by simpa using h⟩
      · exact ⟨d :: l, r, rfl⟩
    · rintro ⟨l, r, hlr⟩
      cases l with
      | nil =>
        left
        exact ⟨r, by simpa using hlr⟩
      | cons x l =>
        right
        rw [List.cons_append] at hlr
        injection hlr with h1 h2
        exact ⟨l, r, by simpa using h2⟩

theorem likeMatch_wrapped_eq_hasSubstring (kl sl : List Char)
    (h : ∀ c ∈ kl, c ≠ '%' ∧ c ≠ '_') :
    likeMatch ('%' :: (kl ++ ['%'])) sl = hasSubstringChars kl sl := by
  have hiff : likeMatch ('%' :: (kl ++ ['%'])) sl = true ↔
      hasSubstringChars kl sl = true := by
    rw [likeMatch_pct_iff, hasSubstringChars_iff]
    constructor
    · rintro ⟨l, t, rfl, hq⟩
      rw [likeMatch_literal_append_pct kl h t, startsWithChars_iff] at hq
      obtain ⟨rst, rfl⟩ := hq
      exact ⟨l, rst, by simp⟩
    · rintro ⟨l, r, rfl⟩
      refine ⟨l, kl ++ r, by simp, ?_⟩
      rw [likeMatch_literal_append_pct kl h, startsWithChars_iff]
      exact ⟨r, rfl⟩
  cases h1 : likeMatch ('%' :: (kl ++ ['%'])) sl <;>
    cases h2 : hasSubstringChars kl sl <;> simp_all

theorem ilikeContains_eq_specSubstringCI (s k : String) (h : noLikeMeta k) :
    ilikeContains s k = specSubstringCI s k :=
  likeMatch_wrapped_eq_hasSubstring (k.toList.map Char.toLower)
    (s.toList.map Char.toLower) (fun c hc => ⟨(h c hc).1, (h c hc).2.1⟩)

/-!
## General helper lemmas
-/

theorem one_le_string_length_iff (s : String) : 1 ≤ s.length ↔ s ≠ "" := by
  constructor
  · intro h he
    subst he
    exact absurd h (by decide)
  · intro h
    rcases s with ⟨data⟩
    cases data with
    | nil => exact absurd (by decide) h
    | cons c cs => exact Nat.succ_le_succ (Nat.zero_le cs.length)

theorem zipWith_mul_append_right (q e ext : List ℚ) (h : q.length ≤ e.length) :
    List.zipWith (fun a b => a * b) q (e ++ ext) =
      List.zipWith (fun a b => a * b) q e := by
  induction q generalizing e with
  | nil => simp
  | cons a q ih =>
    cases e with
    | nil => simp at h
    | cons b e =>
      simp only [List.cons_append, List.zipWith_cons_cons]
      rw [ih e (by simpa using h)]

/-- The deterministic resolution of the search query is one of the legal
outcomes described by `validSearchOutput`. -/
theorem searchCodeCheckpoints_valid (input : SearchCodeCheckpointsInput)
    (db : List CodeCheckpoint) :
    validSearchOutput input db (searchCodeCheckpoints input db).results := by
  refine ⟨orderResults input (db.filter (matchesFilters input)), ?_, ?_, rfl⟩
  · unfold orderResults
    cases input.embedding with
    | none => exact List.perm_insertionSort recencyGe _
    | some q =>
      dsimp only
      by_cases hq : q.isEmpty
      · simp only [if_pos hq]; exact List.perm_insertionSort recencyGe _
      · simp only [if_neg hq]; exact List.perm_insertionSort (scoreGe q) _
  · unfold orderResults
    cases input.embedding with
    | none => exact List.sorted_insertionSort recencyGe _
    | some q =>
      dsimp only
      by_cases hq : q.isEmpty
      · simp only [if_pos hq]; exact List.sorted_insertionSort recencyGe _
      · simp only [if_neg hq]; exact List.sorted_insertionSort (scoreGe q) _

/-!
## The claims
-/

/-- C3 counterexample: a create input with an empty embedding list (and
non-empty text fields) passes `createCodeCheckpointInputSchema`
validation, refuting "embedding must be non-empty at creation ... rejected
as a validation failure". -/
theorem C3_counterexample :
    createCodeCheckpointInputValid emptyEmbeddingCreate = true ∧
      emptyEmbeddingCreate.embedding = [] :=
  ⟨by decide, rfl⟩

/-- C3 (amended): create validation accepts an input exactly when its five
text fields are non-empty; the `embedding` list is merely required to be
present and may be empty, and `tags` may be absent or empty — neither
influences validation. -/
theorem C3_theorem (i : CreateCodeCheckpointInput) :
    createCodeCheckpointInputValid i = true ↔
      (i.title ≠ "" ∧ i.summary ≠ "" ∧ i.code_snippet ≠ "" ∧
        i.user_feedback ≠ "" ∧ i.programming_language ≠ "") := by
  unfold createCodeCheckpointInputValid
  simp only [Bool.and_eq_true, decide_eq_true_eq, one_le_string_length_iff]
  tauto

/-- C9: `deleteCheckpoint` reports `true` exactly when a row with the
requested id is in the store (and `false`, not an error, otherwise), and
after the delete a lookup of that id returns the absent marker. -/
theorem C9_theorem : ∀ (db : List CodeCheckpoint) (id : Int),
    ((deleteCodeCheckpoint db id).fst = true ↔ ∃ r ∈ db, r.id = id) ∧
      getCodeCheckpointById (deleteCodeCheckpoint db id).snd id = none := by
  intro db id
  constructor
  · unfold deleteCodeCheckpoint
    simp [List.any_eq_true]
  · unfold deleteCodeCheckpoint getCodeCheckpointById
    simp only [List.find?_eq_none, List.mem_filter]
    intro r hr
    simpa using hr.2

/-- C5: with a non-empty tag filter, a row is in the matching set exactly
when the other clauses hold and its stored tag list contains at least one
requested tag as an element (OR across requested tags, exact
membership). -/
theorem C5_theorem (input : SearchCodeCheckpointsInput) (r : CodeCheckpoint)
    (ts : List String) (hts : input.tags = some ts) (hne : ts ≠ []) :
    matchesFilters input r = true ↔
      (languageCondition input r = true ∧ keywordsCondition input r = true ∧
        ∃ t ∈ ts, t ∈ r.tags) := by
  obtain ⟨t0, ts', rfl⟩ := List.exists_cons_of_ne_nil hne
  unfold matchesFilters tagsCondition
  rw [hts]
  simp only [List.isEmpty_cons, Bool.false_eq_true, if_false, Bool.and_eq_true,
    List.any_eq_true, List.contains, List.elem_iff]
  tauto

/-- C5 witness at a concrete store row and tag filter. -/
theorem C5_witness :
    matchesFilters tagFilterInput pandasRow = true ↔
      (languageCondition tagFilterInput pandasRow = true ∧
        keywordsCondition tagFilterInput pandasRow = true ∧
        ∃ t ∈ ["python", "sql"], t ∈ pandasRow.tags) :=
  C5_theorem tagFilterInput pandasRow ["python", "sql"] rfl (by decide)

/-- C1 counterexample: `searchCodeCheckpointsInputSchema` carries
`.int().positive()` on `limit`, so a request with `limit: 0` is rejected
by validation, refuting "limit = 0 is a legal input, not rejected". -/
theorem C1_counterexample :
    parseSearchCodeCheckpointsInput rawLimitZero = none := by decide

/-- C1 (amended): a request with `limit: 0` fails schema validation
(limit must be a strictly positive integer); the handler itself, when
invoked directly with `limit = 0`, returns zero rows, a `total` equal to
the full matching count, and `has_more` exactly when `offset < total`. -/
theorem C1_theorem (raw : RawSearchInput) (input : SearchCodeCheckpointsInput)
    (db : List CodeCheckpoint) (hraw : raw.limit = some 0)
    (hin : input.limit = 0) :
    parseSearchCodeCheckpointsInput raw = none ∧
      (searchCodeCheckpoints input db).results = [] ∧
      (searchCodeCheckpoints input db).total =
        (db.filter (matchesFilters input)).length ∧
      ((searchCodeCheckpoints input db).has_more = true ↔
        input.offset < (db.filter (matchesFilters input)).length) := by
  refine ⟨?_, ?_, rfl, ?_⟩
  · simp [parseSearchCodeCheckpointsInput, hraw]
  · simp [searchCodeCheckpoints, hin]
  · simp [searchCodeCheckpoints, hin]

/-- C1 witness at the concrete rejected request and a concrete store. -/
theorem C1_witness :
    parseSearchCodeCheckpointsInput rawLimitZero = none ∧
      (searchCodeCheckpoints (plainSearchInput 0 0) tiedStore).results = [] ∧
      (searchCodeCheckpoints (plainSearchInput 0 0) tiedStore).total =
        (tiedStore.filter (matchesFilters (plainSearchInput 0 0))).length ∧
      ((searchCodeCheckpoints (plainSearchInput 0 0) tiedStore).has_more = true ↔
        (plainSearchInput 0 0).offset <
          (tiedStore.filter (matchesFilters (plainSearchInput 0 0))).length) :=
  C1_theorem rawLimitZero (plainSearchInput 0 0) tiedStore rfl rfl

/-- C10: the similarity score is the positional sum of products over the
common prefix of the two vectors; an empty stored embedding scores 0, and
trailing elements of a longer stored embedding are ignored. -/
theorem C10_theorem (q e : List ℚ) :
    (similarityScore q e =
        ∑ i ∈ Finset.range (min q.length e.length), q.getD i 0 * e.getD i 0) ∧
      similarityScore q [] = 0 ∧
      (∀ ext : List ℚ, q.length ≤ e.length →
        similarityScore q (e ++ ext) = similarityScore q e) := by
  refine ⟨?_, by simp [similarityScore], ?_⟩
  · induction q generalizing e with
    | nil => simp [similarityScore]
    | cons a q ih =>
      cases e with
      | nil => simp [similarityScore]
      | cons b e =>
        simp only [similarityScore, List.zipWith_cons_cons, List.sum_cons]
        rw [show (List.zipWith (fun x y => x * y) q e).sum = similarityScore q e
              from rfl, ih e, List.length_cons, List.length_cons,
          Nat.succ_min_succ, Finset.sum_range_succ']
        simp [List.getD_cons_succ, List.getD_cons_zero, add_comm]
  · intro ext hlen
    unfold similarityScore
    rw [zipWith_mul_append_right q e ext hlen]

/-- C10 witness: a longer stored embedding is scored over the common
prefix only. -/
theorem C10_witness :
    similarityScore [1, 2] ([3, 4] ++ [9]) = similarityScore [1, 2] [3, 4] :=
  (C10_theorem [1, 2] [3, 4]).2.2 [9] (by decide)

/-- C6: when the input carries a non-empty query embedding, the returned
page is ordered by non-increasing dot-product similarity against the
stored embeddings. -/
theorem C6_theorem (input : SearchCodeCheckpointsInput)
    (db : List CodeCheckpoint) (q : List ℚ) (hq : input.embedding = some q)
    (hne : q ≠ []) :
    (searchCodeCheckpoints input db).results.Pairwise (scoreGe q) := by
  have hE : q.isEmpty = false := by
    cases q
    · exact absurd rfl hne
    · rfl
  have hsorted :
      (orderResults input (db.filter (matchesFilters input))).Pairwise
        (scoreGe q) := by
    unfold orderResults
    rw [hq]
    dsimp only
    simp only [hE, Bool.false_eq_true, if_false]
    exact List.sorted_insertionSort (scoreGe q) _
  exact hsorted.sublist ((List.take_sublist _ _).trans (List.drop_sublist _ _))

/-- C6 witness at a concrete store and query vector. -/
theorem C6_witness :
    (searchCodeCheckpoints embSearchInput embStore).results.Pairwise
      (scoreGe [1]) :=
  C6_theorem embSearchInput embStore [1] rfl (by decide)

/-- C7: `has_more` always equals `offset + limit < total` with `total` the
count of matching rows independent of pagination; on a concrete store of
four rows with `limit = 2`, `has_more` is true at offset 0 and false at
offset 2, and the two pages have disjoint ids. -/
theorem C7_theorem :
    (∀ (input : SearchCodeCheckpointsInput) (db : List CodeCheckpoint),
        (searchCodeCheckpoints input db).has_more =
          decide (input.offset + input.limit <
            (searchCodeCheckpoints input db).total)) ∧
      (∀ (input : SearchCodeCheckpointsInput) (db : List CodeCheckpoint)
          (l o : Nat),
        (searchCodeCheckpoints { input with limit := l, offset := o } db).total =
          (searchCodeCheckpoints input db).total) ∧
      (searchCodeCheckpoints (plainSearchInput 2 0) pagingStore).has_more = true ∧
      (searchCodeCheckpoints (plainSearchInput 2 2) pagingStore).has_more = false ∧
      (∀ r1 ∈ (searchCodeCheckpoints (plainSearchInput 2 0) pagingStore).results,
        ∀ r2 ∈ (searchCodeCheckpoints (plainSearchInput 2 2) pagingStore).results,
          r1.id ≠ r2.id) :=
  ⟨fun _ _ => rfl, fun _ _ _ _ => rfl, by decide, by decide, by decide⟩

/-- C7 witness: the `has_more` formula instantiated at a concrete call. -/
theorem C7_witness :
    (searchCodeCheckpoints (plainSearchInput 3 1) tiedStore).has_more =
      decide ((plainSearchInput 3 1).offset + (plainSearchInput 3 1).limit <
        (searchCodeCheckpoints (plainSearchInput 3 1) tiedStore).total) :=
  C7_theorem.1 (plainSearchInput 3 1) tiedStore

/-- Field-by-field effect of `.set(updateFields)`: `id` and `created_at`
are untouched, a supplied field is overwritten with the supplied value,
and an unsupplied field keeps its previous value. -/
theorem applyUpdateFields_spec (input : UpdateCodeCheckpointInput)
    (r : CodeCheckpoint) :
    (applyUpdateFields input r).id = r.id ∧
      (applyUpdateFields input r).created_at = r.created_at ∧
      (∀ t, input.title = some t → (applyUpdateFields input r).title = t) ∧
      (input.title = none → (applyUpdateFields input r).title = r.title) ∧
      (∀ t, input.summary = some t → (applyUpdateFields input r).summary = t) ∧
      (input.summary = none → (applyUpdateFields input r).summary = r.summary) ∧
      (∀ t, input.code_snippet = some t →
        (applyUpdateFields input r).code_snippet = t) ∧
      (input.code_snippet = none →
        (applyUpdateFields input r).code_snippet = r.code_snippet) ∧
      (∀ t, input.user_feedback = some t →
        (applyUpdateFields input r).user_feedback = t) ∧
      (input.user_feedback = none →
        (applyUpdateFields input r).user_feedback = r.user_feedback) ∧
      (∀ t, input.programming_language = some t →
        (applyUpdateFields input r).programming_language = t) ∧
      (input.programming_language = none →
        (applyUpdateFields input r).programming_language =
          r.programming_language) ∧
      (∀ t, input.tags = some t → (applyUpdateFields input r).tags = t) ∧
      (input.tags = none → (applyUpdateFields input r).tags = r.tags) ∧
      (∀ t, input.embedding = some t →
        (applyUpdateFields input r).embedding = t) ∧
      (input.embedding = none →
        (applyUpdateFields input r).embedding = r.embedding) := by
  refine ⟨rfl, rfl, ?_, ?_, ?_, ?_, ?_, ?_, ?_, ?_, ?_, ?_, ?_, ?_, ?_, ?_⟩ <;>
    first
      | (intro t ht; simp [applyUpdateFields, ht])
      | (intro ht; simp [applyUpdateFields, ht])

/-- C8: updating overwrites exactly the supplied mutable fields.  With the
target id present, an update supplying no fields returns the stored row
and leaves the store untouched; whatever row an update returns agrees with
the stored row on `id`, `created_at` and every unsupplied field, and
carries the supplied value for every supplied field.  With the id absent,
the returned row is the absent marker. -/
theorem C8_theorem (input : UpdateCodeCheckpointInput)
    (db : List CodeCheckpoint) :
    (getCodeCheckpointById db input.id = none →
        (updateCodeCheckpoint input db).fst = none) ∧
      (∀ r, getCodeCheckpointById db input.id = some r →
        (hasNoUpdateFields input = true →
          updateCodeCheckpoint input db = (some r, db)) ∧
        (∀ r', (updateCodeCheckpoint input db).fst = some r' →
          r'.id = r.id ∧ r'.created_at = r.created_at ∧
          (∀ t, input.title = some t → r'.title = t) ∧
          (input.title = none → r'.title = r.title) ∧
          (∀ t, input.summary = some t → r'.summary = t) ∧
          (input.summary = none → r'.summary = r.summary) ∧
          (∀ t, input.code_snippet = some t → r'.code_snippet = t) ∧
          (input.code_snippet = none → r'.code_snippet = r.code_snippet) ∧
          (∀ t, input.user_feedback = some t → r'.user_feedback = t) ∧
          (input.user_feedback = none → r'.user_feedback = r.user_feedback) ∧
          (∀ t, input.programming_language = some t →
            r'.programming_language = t) ∧
          (input.programming_language = none →
            r'.programming_language = r.programming_language) ∧
          (∀ t, input.tags = some t → r'.tags = t) ∧
          (input.tags = none → r'.tags = r.tags) ∧
          (∀ t, input.embedding = some t → r'.embedding = t) ∧
          (input.embedding = none → r'.embedding = r.embedding))) := by
  constructor
  · intro hnone
    unfold updateCodeCheckpoint
    by_cases hf : hasNoUpdateFields input = true
    · rw [if_pos hf]
      simpa using hnone
    · rw [if_neg hf]
      simp [hnone]
  · intro r hr
    constructor
    · intro hf
      unfold updateCodeCheckpoint
      rw [if_pos hf, hr]
    · intro r' hr'
      unfold updateCodeCheckpoint at hr'
      by_cases hf : hasNoUpdateFields input = true
      · rw [if_pos hf] at hr'
        simp only at hr'
        rw [hr] at hr'
        obtain rfl : r = r' := Option.some.inj hr'
        have hfields := hf
        unfold hasNoUpdateFields at hfields
        simp only [Bool.and_eq_true, Option.isNone_iff_eq_none] at hfields
        obtain ⟨⟨⟨⟨⟨⟨h1, h2⟩, h3⟩, h4⟩, h5⟩, h6⟩, h7⟩ := hfields
        exact ⟨rfl, rfl,
          fun t ht => absurd (h1 ▸ ht) (by simp), fun _ => rfl,
          fun t ht => absurd (h2 ▸ ht) (by simp), fun _ => rfl,
          fun t ht => absurd (h3 ▸ ht) (by simp), fun _ => rfl,
          fun t ht => absurd (h4 ▸ ht) (by simp), fun _ => rfl,
          fun t ht => absurd (h5 ▸ ht) (by simp), fun _ => rfl,
          fun t ht => absurd (h6 ▸ ht) (by simp), fun _ => rfl,
          fun t ht => absurd (h7 ▸ ht) (by simp), fun _ => rfl⟩
      · rw [if_neg hf] at hr'
        simp only [hr, Option.map_some] at hr'
        obtain rfl : r' = applyUpdateFields input r := (Option.some.inj hr').symm
        exact applyUpdateFields_spec input r

/-- C8 witness: at a concrete one-row store, the no-field update returns
the stored row unchanged. -/
theorem C8_witness :
    updateCodeCheckpoint updNothing updStore = (some updStoreRow, updStore) :=
  ((C8_theorem updNothing updStore).2 updStoreRow rfl).1 rfl

/-- C2 counterexample: the recency query issues no tiebreak clause, so on
a store with two rows of equal `created_at` the reversed (descending-id)
arrangement is also a legal outcome of `ORDER BY created_at DESC`; the
claimed insertion-order tiebreak therefore does not hold of every legal
result. -/
theorem C2_counterexample :
    validSearchOutput (plainSearchInput 20 0) tiedStore [tiedRow2, tiedRow1] ∧
      tiedRow1.id < tiedRow2.id ∧
      tiedRow1.created_at = tiedRow2.created_at ∧
      ¬ specRecencyIdOrdered [tiedRow2, tiedRow1] := by
  refine ⟨⟨[tiedRow2, tiedRow1], ?_, ?_, rfl⟩, by decide, by decide,
    by unfold specRecencyIdOrdered; decide⟩
  · have hfilter :
        tiedStore.filter (matchesFilters (plainSearchInput 20 0)) =
          [tiedRow1, tiedRow2] := by decide
    rw [hfilter]
    exact List.Perm.swap tiedRow1 tiedRow2 []
  · show List.Pairwise recencyGe [tiedRow2, tiedRow1]
    decide

/-- C2 (amended): with no query embedding (or an empty one), every legal
result page is ordered by `created_at` descending; the relative order of
rows with equal `created_at` is unspecified, since the query issues no
secondary sort key. -/
theorem C2_theorem (input : SearchCodeCheckpointsInput)
    (db res : List CodeCheckpoint)
    (hemb : input.embedding = none ∨ input.embedding = some [])
    (hvalid : validSearchOutput input db res) :
    res.Pairwise recencyGe := by
  obtain ⟨s, _, hsort, rfl⟩ := hvalid
  have hs : s.Pairwise recencyGe := by
    rcases hemb with h | h <;> rw [h] at hsort <;> simpa using hsort
  exact hs.sublist ((List.take_sublist _ _).trans (List.drop_sublist _ _))

/-- C2 witness: the amended ordering fact at a concrete legal output. -/
theorem C2_witness : List.Pairwise recencyGe [tiedRow1, tiedRow2] := by
  have hvalid :
      validSearchOutput (plainSearchInput 20 0) tiedStore
        [tiedRow1, tiedRow2] := by
    refine ⟨[tiedRow1, tiedRow2], ?_, ?_, rfl⟩
    · have hfilter :
          tiedStore.filter (matchesFilters (plainSearchInput 20 0)) =
            [tiedRow1, tiedRow2] := by decide
      rw [hfilter]
    · show List.Pairwise recencyGe [tiedRow1, tiedRow2]
      decide
  exact C2_theorem (plainSearchInput 20 0) tiedStore [tiedRow1, tiedRow2]
    (Or.inl rfl) hvalid

/-- C4 counterexample: the keyword clause interpolates the keyword into an
ILIKE pattern without escaping, so a keyword containing the `_` wildcard
matches rows that the claimed plain-substring reading excludes: the
keyword `a_c` matches the title `abc` under the code's predicate while
`a_c` is not a case-insensitive substring of any of the row's fields. -/
theorem C4_counterexample :
    matchesFilters underscoreKeywordInput underscoreRow = true ∧
      underscoreKeywordInput.keywords = some ["a_c"] ∧
      specKeywordMatches "a_c" underscoreRow = false ∧
      specSubstringCI underscoreRow.title "a_c" = false :=
  ⟨by decide, rfl, by decide, by decide⟩

/-- C4 (amended): for keywords free of the LIKE metacharacters `%` and `_`
and the escape character `\`, a row is in the matching set exactly when
the other clauses hold and every keyword is, case-insensitively, a
substring of the title, of the summary, or of the space-joined tag list
(AND across keywords, OR across the three fields); a keyword containing a
metacharacter is instead interpreted as a LIKE pattern fragment. -/
theorem C4_theorem (input : SearchCodeCheckpointsInput) (r : CodeCheckpoint)
    (ks : List String) (hks : input.keywords = some ks) (hne : ks ≠ [])
    (hmeta : ∀ k ∈ ks, noLikeMeta k) :
    matchesFilters input r = true ↔
      (languageCondition input r = true ∧ tagsCondition input r = true ∧
        ∀ k ∈ ks, specKeywordMatches k r = true) := by
  have hpt : ∀ k ∈ ks, keywordCondition k r = specKeywordMatches k r := by
    intro k hk
    unfold keywordCondition specKeywordMatches
    rw [ilikeContains_eq_specSubstringCI _ _ (hmeta k hk),
      ilikeContains_eq_specSubstringCI _ _ (hmeta k hk),
      ilikeContains_eq_specSubstringCI _ _ (hmeta k hk)]
  obtain ⟨k0, ks', rfl⟩ := List.exists_cons_of_ne_nil hne
  unfold matchesFilters keywordsCondition
  rw [hks]
  simp only [List.isEmpty_cons, Bool.false_eq_true, if_false, Bool.and_eq_true,
    List.all_eq_true]
  constructor
  · rintro ⟨⟨h1, h2⟩, h3⟩
    exact ⟨h1, h2, fun k hk => ((hpt k hk).symm).trans (h3 k hk)⟩
  · rintro ⟨h1, h2, h3⟩
    exact ⟨⟨h1, h2⟩, fun k hk => (hpt k hk).trans (h3 k hk)⟩

/-- C4 witness: the amended equivalence at a concrete uppercase keyword
and a concrete row, showing the case-insensitive substring reading. -/
theorem C4_witness :
    matchesFilters reactKeywordInput reactRow = true ↔
      (languageCondition reactKeywordInput reactRow = true ∧
        tagsCondition reactKeywordInput reactRow = true ∧
        ∀ k ∈ ["REACT"], specKeywordMatches k reactRow = true) :=
  C4_theorem reactKeywordInput reactRow ["REACT"] rfl (by decide)
    (by unfold noLikeMeta; decide)

end CodeCheckpoints
